import Mathlib

/-!
Verification of the satellite visibility-pass computation implemented by the
two scripts of this repository, `Информация_о_спутнике_1.py` (called
"variant 1" below) and `Информация_о_спутнике_2.py` ("variant 2").

Modelling choices (shallow embedding):

* UTC instants are rationals, counted in seconds from an arbitrary epoch.
  Python `datetime` arithmetic on microsecond-exact values is exact, so the
  `isoformat` round trips performed by the scripts are modelled as the
  identity and timestamps are kept as rationals.
* All geometric quantities (degrees, kilometres, metres) are rationals.
* The external skyfield calls are oracles passed to the sweep:
  `satAt t` models the whole of `satellite.at(t)` together with
  `sat_pos.distance().km` (the geocentric range) and `sat_pos.subpoint()`;
  `altazAt t u` models `(satellite.at(t) - observer.at(u)).altaz()`, i.e. the
  topocentric elevation/azimuth/range for the satellite position at time `t`
  and the observer position at time `u`.  A `none` result models a raised
  per-step exception (`PropagationError`/`GeometryError`); the scripts catch
  it and skip the step.
* Python's `round(x, n)` is modelled as decimal round-half-to-even on the
  exact rational value.
-/

section Spec2Proof

attribute [local semireducible] Rat.mul Rat.add Rat.sub Rat.inv Rat.ofScientific

/-- Round-half-to-even of a rational to an integer: the semantics of Python's
builtin `round` applied to an exactly represented decimal value. -/
def roundHalfEven (q : ℚ) : ℤ :=
  if q - q.floor < 1/2 then q.floor
  else if 1/2 < q - q.floor then q.floor + 1
  else if q.floor % 2 = 0 then q.floor else q.floor + 1

/-- Python's `round(x, n)` for `n ≥ 0` decimal digits. -/
def roundTo (n : ℕ) (x : ℚ) : ℚ := (roundHalfEven (x * 10 ^ n) : ℚ) / 10 ^ n

/-- Result of `satellite.at(t)` as consumed by the scripts: the geocentric
range `sat_pos.distance().km` and the geodetic sub-point
`sat_pos.subpoint()` (latitude and longitude in degrees, height in metres;
variant 2 reads the same height in kilometres as `subpoint.elevation.km`). -/
structure SatPos where
  distKm : ℚ
  subLat : ℚ
  subLon : ℚ
  subHeightM : ℚ
deriving DecidableEq

/-- Result of `(sat_pos - observer_pos).altaz()`: topocentric elevation and
azimuth in degrees and line-of-sight range in kilometres. -/
structure AltAz where
  altDeg : ℚ
  azDeg : ℚ
  distKm : ℚ
deriving DecidableEq

/-- One pass record of variant 1 (the dict built at lines 95-101 of
`Информация_о_спутнике_1.py`).  `endTime` renders the source key `end`,
which is a reserved word in Lean. -/
structure Pass1 where
  pass_id : ℕ
  start : ℚ
  endTime : ℚ
  max_elevation : ℚ
  duration_sec : ℚ
deriving DecidableEq

/-- One ephemeris record of variant 1 (lines 107-120), with the `geodesic`
and `relative` sub-dicts flattened. -/
structure EphemerisEntry1 where
  pass_id : ℕ
  timestamp : ℚ
  lat : ℚ
  lon : ℚ
  height_m : ℚ
  elevation : ℚ
  azimuth : ℚ
  distance_km : ℚ
deriving DecidableEq

/-- The mutable sweep state of variant 1: `passes_data`, `ephemeris_data`,
`pass_counter` and `current_pass` of `calculate_and_save_data`. -/
structure State1 where
  passes_data : List Pass1
  ephemeris_data : List EphemerisEntry1
  pass_counter : ℕ
  current_pass : Option Pass1
deriving DecidableEq

/-- The state before the sweep loop (lines 65-68 of variant 1). -/
def init1 : State1 := ⟨[], [], 0, none⟩

/-- The light-time-corrected observation instant of variant 1 (lines 78-79):
`t_obs = t - distance_km / 299792.458` seconds. -/
def t_obs (t distKm : ℚ) : ℚ := t - distKm / 299792.458

/-- The ephemeris entry variant 1 appends for a visible sample
(lines 107-120): geodetic fields rounded to 6/6/2 decimals, topocentric
fields rounded to 3 decimals. -/
def mkEntry1 (pid : ℕ) (t : ℚ) (sat : SatPos) (aa : AltAz) : EphemerisEntry1 :=
  { pass_id := pid
    timestamp := t
    lat := roundTo 6 sat.subLat
    lon := roundTo 6 sat.subLon
    height_m := roundTo 2 sat.subHeightM
    elevation := roundTo 3 aa.altDeg
    azimuth := roundTo 3 aa.azDeg
    distance_km := roundTo 3 aa.distKm }

/-- Closing a pass in variant 1 (lines 125-128 and 136-139):
`duration_sec = end - start` in seconds, computed from the stored
timestamps. -/
def closePass1 (p : Pass1) : Pass1 :=
  { p with duration_sec := p.endTime - p.start }

/-- The part of variant 1's loop body that runs on the result of the
geometry computation for time `t` (lines 92-130): threshold test, pass
open/update, ephemeris append, or pass close.  The argument is `none` when
`altaz` itself raised, in which case the step is skipped. -/
def handleSample1 (sat : SatPos) (min_elevation : ℚ) (s : State1) (t : ℚ) :
    Option AltAz → State1
  | none => s
  | some aa =>
    if aa.altDeg ≥ min_elevation then
      match s.current_pass with
      | none =>
        { passes_data := s.passes_data
          ephemeris_data :=
            s.ephemeris_data ++ [mkEntry1 (s.pass_counter + 1) t sat aa]
          pass_counter := s.pass_counter + 1
          current_pass := some
            { pass_id := s.pass_counter + 1, start := t, endTime := t
              max_elevation := aa.altDeg
              duration_sec := 0 } }
      | some p =>
        { passes_data := s.passes_data
          ephemeris_data := s.ephemeris_data ++ [mkEntry1 s.pass_counter t sat aa]
          pass_counter := s.pass_counter
          current_pass := some
            { p with
                endTime := t
                max_elevation := max p.max_elevation aa.altDeg } }
    else
      match s.current_pass with
      | none => s
      | some p =>
        { s with passes_data := s.passes_data ++ [closePass1 p],
                 current_pass := none }

/-- One iteration of variant 1's sweep loop for time `t` (lines 71-132):
compute the satellite position, apply the light-time correction to the
observer's instant, compute the topocentric geometry, then process the
sample; a raised exception (modelled by `none`) skips the step. -/
def step1 (satAt : ℚ → Option SatPos) (altazAt : ℚ → ℚ → Option AltAz)
    (min_elevation : ℚ) (s : State1) (t : ℚ) : State1 :=
  match satAt t with
  | none => s
  | some sat => handleSample1 sat min_elevation s t
      (altazAt t (t_obs t sat.distKm))

/-- Closing of the last still-open pass after the sweep (lines 135-140 of
variant 1). -/
def finalize1 (s : State1) : State1 :=
  match s.current_pass with
  | none => s
  | some p =>
    { s with passes_data := s.passes_data ++ [closePass1 p],
             current_pass := none }

/-- The list of instants visited by the sweep loop
`while current_time <= end_time: ... current_time += step_seconds`,
unrolled: `n` instants starting at `t0`, `step` seconds apart.  (For
`step_seconds ≤ 0` the Python loop would not terminate; the model is only
used with the spec's precondition `step_seconds > 0`.) -/
def gridList (t0 : ℚ) (step : ℤ) : ℕ → List ℚ
  | 0 => []
  | n + 1 => t0 :: gridList (t0 + step) step n

/-- The instants of the sweep from `t0` to `tEnd` inclusive at `step`
seconds: `t0 + i * step` for `0 ≤ i ≤ ⌊(tEnd - t0) / step⌋`, and no instant
at all when `t0 > tEnd`. -/
def gridTimes (t0 tEnd : ℚ) (step : ℤ) : List ℚ :=
  if t0 ≤ tEnd then gridList t0 step (((tEnd - t0) / (step : ℚ)).floor.toNat + 1)
  else []

/-- The whole sweep of variant 1: fold the loop body over the grid of
instants, then close a pass left open at the end of the sweep. -/
def run1 (satAt : ℚ → Option SatPos) (altazAt : ℚ → ℚ → Option AltAz)
    (min_elevation t0 tEnd : ℚ) (step_seconds : ℤ) : State1 :=
  finalize1 ((gridTimes t0 tEnd step_seconds).foldl
    (step1 satAt altazAt min_elevation) init1)

/-- One ephemeris record of variant 2 (lines 87-100 of
`Информация_о_спутнике_2.py`), with the `geodetic` and `topocentric`
sub-dicts flattened; the sub-point height is read in kilometres
(`subpoint.elevation.km`) and rounded to 3 decimals. -/
structure EphemerisEntry2 where
  pass_id : ℕ
  timestamp : ℚ
  latitude : ℚ
  longitude : ℚ
  altitude_km : ℚ
  elevation : ℚ
  azimuth : ℚ
  distance_km : ℚ
deriving DecidableEq

/-- One pass record of variant 2 (lines 72-78): unlike variant 1 it also
carries the list of its own ephemeris entries (`events`), its
`max_elevation` holds elevations rounded to 2 decimals, and the
`duration_sec` key only appears when the pass is closed (modelled by the
default value 0 until then). -/
structure Pass2 where
  pass_id : ℕ
  start : ℚ
  endTime : ℚ
  max_elevation : ℚ
  duration_sec : ℚ
  events : List EphemerisEntry2
deriving DecidableEq

/-- The mutable sweep state of variant 2: `passes`, `ephemeris`,
`pass_number` and `current_pass` of `calculate_and_save_data`. -/
structure State2 where
  passes : List Pass2
  ephemeris : List EphemerisEntry2
  pass_number : ℕ
  current_pass : Option Pass2
deriving DecidableEq

/-- The state before the sweep loop (lines 55-58 of variant 2). -/
def init2 : State2 := ⟨[], [], 0, none⟩

/-- The ephemeris entry variant 2 appends for a visible sample
(lines 87-100). -/
def mkEntry2 (pid : ℕ) (t : ℚ) (sat : SatPos) (aa : AltAz) : EphemerisEntry2 :=
  { pass_id := pid
    timestamp := t
    latitude := roundTo 6 sat.subLat
    longitude := roundTo 6 sat.subLon
    altitude_km := roundTo 3 (sat.subHeightM / 1000)
    elevation := roundTo 3 aa.altDeg
    azimuth := roundTo 3 aa.azDeg
    distance_km := roundTo 3 aa.distKm }

/-- Closing a pass in variant 2 (lines 105-108 and 119-122):
`duration_sec = round(end - start, 1)` seconds. -/
def closePass2 (p : Pass2) : Pass2 :=
  { p with duration_sec := roundTo 1 (p.endTime - p.start) }

/-- The part of variant 2's loop body that runs on the result of the
geometry computation for time `t` (lines 69-110): threshold test, pass
open/update (with the elevation rounded to 2 decimals before it enters
`max_elevation`), append of the ephemeris entry both to the global list and
to the open pass's `events`, or pass close. -/
def handleSample2 (sat : SatPos) (min_elevation : ℚ) (s : State2) (t : ℚ) :
    Option AltAz → State2
  | none => s
  | some aa =>
    if aa.altDeg ≥ min_elevation then
      match s.current_pass with
      | none =>
        { passes := s.passes
          ephemeris := s.ephemeris ++ [mkEntry2 (s.pass_number + 1) t sat aa]
          pass_number := s.pass_number + 1
          current_pass := some
            { pass_id := s.pass_number + 1, start := t, endTime := t
              max_elevation := roundTo 2 aa.altDeg
              duration_sec := 0
              events := [mkEntry2 (s.pass_number + 1) t sat aa] } }
      | some p =>
        { passes := s.passes
          ephemeris := s.ephemeris ++ [mkEntry2 s.pass_number t sat aa]
          pass_number := s.pass_number
          current_pass := some
            { p with
                endTime := t
                max_elevation := max p.max_elevation (roundTo 2 aa.altDeg)
                events := p.events ++ [mkEntry2 s.pass_number t sat aa] } }
    else
      match s.current_pass with
      | none => s
      | some p =>
        { s with passes := s.passes ++ [closePass2 p],
                 current_pass := none }

/-- One iteration of variant 2's sweep loop for time `t` (lines 61-115):
compute the satellite position and the topocentric geometry — the observer
evaluated at the same instant `t`, with no light-time correction — then
process the sample; a raised exception (modelled by `none`) skips the
step. -/
def step2 (satAt : ℚ → Option SatPos) (altazAt : ℚ → ℚ → Option AltAz)
    (min_elevation : ℚ) (s : State2) (t : ℚ) : State2 :=
  match satAt t with
  | none => s
  | some sat => handleSample2 sat min_elevation s t (altazAt t t)

/-- Closing of the last still-open pass after the sweep (lines 118-123 of
variant 2). -/
def finalize2 (s : State2) : State2 :=
  match s.current_pass with
  | none => s
  | some p =>
    { s with passes := s.passes ++ [closePass2 p],
             current_pass := none }

/-- The whole sweep of variant 2. -/
def run2 (satAt : ℚ → Option SatPos) (altazAt : ℚ → ℚ → Option AltAz)
    (min_elevation t0 tEnd : ℚ) (step_seconds : ℤ) : State2 :=
  finalize2 ((gridTimes t0 tEnd step_seconds).foldl
    (step2 satAt altazAt min_elevation) init2)

/-- Observer block shared by both variants' metadata. -/
structure ObserverMeta where
  latitude : ℚ
  longitude : ℚ
  elevation_m : ℚ
deriving DecidableEq

/-- The `calculation_parameters` block of variant 1's metadata
(lines 57-62). -/
structure CalcParams1 where
  start : ℚ
  endTime : ℚ
  step_seconds : ℤ
  min_elevation_deg : ℚ
deriving DecidableEq

/-- The `common_metadata` dict of variant 1 (lines 49-63). -/
structure Metadata1 where
  satellite_name : String
  norad_id : ℕ
  observer : ObserverMeta
  calculation_parameters : CalcParams1
deriving DecidableEq

/-- The passes report of variant 1 (lines 142-148): common metadata plus
`total_passes` (kept beside the metadata here) and the pass list. -/
structure PassesOutput1 where
  metadata : Metadata1
  total_passes : ℕ
  passes : List Pass1
deriving DecidableEq

/-- The ephemeris report of variant 1 (lines 150-153). -/
structure EphemerisOutput1 where
  metadata : Metadata1
  ephemeris : List EphemerisEntry1
deriving DecidableEq

/-- All inputs of variant 1's `calculate_and_save_data` that influence the
report contents.  The element set enters through the two oracles (skyfield's
propagation of the TLE) and through `norad_id`; `satellite_name` is the
result of the external catalog lookup `get_satellite_name(norad_id)`. -/
structure Inputs1 where
  satAt : ℚ → Option SatPos
  altazAt : ℚ → ℚ → Option AltAz
  satellite_name : String
  norad_id : ℕ
  observer_lat : ℚ
  observer_lon : ℚ
  observer_elev : ℚ
  start_time_utc : ℚ
  end_time_utc : ℚ
  step_seconds : ℤ
  min_elevation : ℚ

/-- The two report values produced by variant 1's
`calculate_and_save_data` (the file writes serialize exactly these). -/
def calculate_and_save_data1 (i : Inputs1) : PassesOutput1 × EphemerisOutput1 :=
  let meta : Metadata1 :=
    { satellite_name := i.satellite_name
      norad_id := i.norad_id
      observer := ⟨i.observer_lat, i.observer_lon, i.observer_elev⟩
      calculation_parameters :=
        ⟨i.start_time_utc, i.end_time_utc, i.step_seconds, i.min_elevation⟩ }
  let s := run1 i.satAt i.altazAt i.min_elevation i.start_time_utc
    i.end_time_utc i.step_seconds
  (⟨meta, s.pass_counter, s.passes_data⟩, ⟨meta, s.ephemeris_data⟩)

/-- The `satellite` block of variant 2's metadata (lines 35-39). -/
structure SatelliteMeta2 where
  name : String
  norad_id : ℕ
  tle_source : String
deriving DecidableEq

/-- The `calculation` block of variant 2's metadata (lines 45-51); it embeds
the wall-clock reading `datetime.now(timezone.utc)` taken before the
sweep. -/
structure Calc2 where
  start : ℚ
  endTime : ℚ
  step_seconds : ℤ
  min_elevation_deg : ℚ
  utc_calculated : ℚ
deriving DecidableEq

/-- The `metadata` dict of variant 2 (lines 34-52). -/
structure Metadata2 where
  satellite : SatelliteMeta2
  observer : ObserverMeta
  calculation : Calc2
deriving DecidableEq

/-- The `statistics` block of variant 2's passes report (lines 129-132). -/
structure Statistics2 where
  total_passes : ℕ
  visible_time_total : ℚ
deriving DecidableEq

/-- The passes report of variant 2 (lines 126-134). -/
structure PassesOutput2 where
  metadata : Metadata2
  statistics : Statistics2
  passes : List Pass2
deriving DecidableEq

/-- The ephemeris report of variant 2 (lines 136-140). -/
structure EphemerisOutput2 where
  metadata : Metadata2
  ephemeris : List EphemerisEntry2
deriving DecidableEq

/-- All inputs of variant 2's `calculate_and_save_data` that influence the
report contents.  `satellite_name` is the name carried by the fetched TLE
(`satellite.name.strip()`), and `now_utc` is the wall-clock reading embedded
into the metadata as `utc_calculated`. -/
structure Inputs2 where
  satAt : ℚ → Option SatPos
  altazAt : ℚ → ℚ → Option AltAz
  satellite_name : String
  norad_id : ℕ
  observer_lat : ℚ
  observer_lon : ℚ
  observer_elev : ℚ
  start_time_utc : ℚ
  end_time_utc : ℚ
  step_seconds : ℤ
  min_elevation : ℚ
  now_utc : ℚ

/-- The TLE source URL recorded in variant 2's metadata (line 38). -/
def tleSourceUrl (norad_id : ℕ) : String :=
  "https://celestrak.org/NORAD/elements/gp.php?CATNR=" ++ toString norad_id

/-- The two report values produced by variant 2's
`calculate_and_save_data`. -/
def calculate_and_save_data2 (i : Inputs2) : PassesOutput2 × EphemerisOutput2 :=
  let meta : Metadata2 :=
    { satellite := ⟨i.satellite_name, i.norad_id, tleSourceUrl i.norad_id⟩
      observer := ⟨i.observer_lat, i.observer_lon, i.observer_elev⟩
      calculation := ⟨i.start_time_utc, i.end_time_utc, i.step_seconds,
        i.min_elevation, i.now_utc⟩ }
  let s := run2 i.satAt i.altazAt i.min_elevation i.start_time_utc
    i.end_time_utc i.step_seconds
  (⟨meta, ⟨s.pass_number, (s.passes.map Pass2.duration_sec).sum⟩, s.passes⟩,
   ⟨meta, s.ephemeris⟩)

/-- The singleton or empty list held by an `Option`. -/
def optList {α : Type*} : Option α → List α
  | none => []
  | some a => [a]

/-- All passes tracked by a variant-1 state: the closed ones followed by the
open one, if any. -/
def allPasses1 (s : State1) : List Pass1 := s.passes_data ++ optList s.current_pass

/-- Invariant of variant 1's sweep state after processing all instants up to
and including `b`, for visibility threshold `m`: the pass ids of the closed
passes followed by the open one are exactly `1..pass_counter`; the passes
are chronologically disjoint; every tracked pass is well-formed and ends no
later than `b`; every tracked pass reaches the threshold; and every
ephemeris entry carries a pass id in `1..pass_counter`. -/
structure Inv1 (m : ℚ) (s : State1) (b : ℚ) : Prop where
  ids : (allPasses1 s).map Pass1.pass_id = List.range' 1 s.pass_counter
  chain : (allPasses1 s).Chain' (fun p q => p.endTime < q.start)
  wf : ∀ p ∈ allPasses1 s, p.start ≤ p.endTime ∧ p.endTime ≤ b
  maxel : ∀ p ∈ allPasses1 s, m ≤ p.max_elevation
  eph : ∀ e ∈ s.ephemeris_data, 1 ≤ e.pass_id ∧ e.pass_id ≤ s.pass_counter

/-- All passes tracked by a variant-2 state. -/
def allPasses2 (s : State2) : List Pass2 := s.passes ++ optList s.current_pass

/-- Invariant of variant 2's sweep state, the counterpart of `Inv1`; since
variant 2 stores elevations rounded to 2 decimals in `max_elevation`, the
elevation bound carried by each tracked pass is `roundTo 2 m` rather than
`m` itself. -/
structure Inv2 (m : ℚ) (s : State2) (b : ℚ) : Prop where
  ids : (allPasses2 s).map Pass2.pass_id = List.range' 1 s.pass_number
  chain : (allPasses2 s).Chain' (fun p q => p.endTime < q.start)
  wf : ∀ p ∈ allPasses2 s, p.start ≤ p.endTime ∧ p.endTime ≤ b
  maxel : ∀ p ∈ allPasses2 s, roundTo 2 m ≤ p.max_elevation
  eph : ∀ e ∈ s.ephemeris, 1 ≤ e.pass_id ∧ e.pass_id ≤ s.pass_number

/-- Satellite oracle for concrete checks: zero geocentric range (so the
light-time correction vanishes) and a fixed sub-point. -/
def satA : ℚ → Option SatPos := fun _ => some ⟨0, 10, 20, 30⟩

/-- Satellite oracle that fails at every instant, modelling a propagation
error on every step. -/
def satFail : ℚ → Option SatPos := fun _ => none

/-- Satellite oracle whose geocentric range is one light-second
(299792.458 km). -/
def satOneSec : ℚ → Option SatPos := fun _ => some ⟨299792.458, 0, 0, 0⟩

/-- Geometry oracle for concrete checks: elevation 50° except at t = 1,
where the satellite dips to -5°. -/
def altSched : ℚ → ℚ → Option AltAz := fun t _ =>
  some ⟨if t = 1 then -5 else 50, 100, 2000⟩

/-- Geometry oracle with the constant elevation 10.005°. -/
def altExact : ℚ → ℚ → Option AltAz := fun _ _ => some ⟨2001/200, 100, 2000⟩

/-- Geometry oracle with the constant elevation 1/3°. -/
def altThird : ℚ → ℚ → Option AltAz := fun _ _ => some ⟨1/3, 100, 2000⟩

/-- Geometry oracle with the constant elevation 10.004°. -/
def altNear : ℚ → ℚ → Option AltAz := fun _ _ => some ⟨10004/1000, 100, 2000⟩

/-- Geometry oracle with the constant elevation 10°. -/
def altB : ℚ → ℚ → Option AltAz := fun _ _ => some ⟨10, 0, 0⟩

/-- Geometry oracle whose elevation depends on the observer instant it is
asked for: 50° when the observer is evaluated in the past (light-time
corrected), -50° when evaluated at the current instant. -/
def altObsTime : ℚ → ℚ → Option AltAz := fun _ u =>
  some ⟨if u < 0 then 50 else -50, 0, 0⟩

/-- Concrete variant-1 input bundle: three instants 0, 1, 2; visible at 0
and 2, invisible at 1, producing two single-sample passes. -/
def wIn1 : Inputs1 :=
  ⟨satA, altSched, "ISS", 25544, 55, 37, 150, 0, 2, 1, 10⟩

/-- Concrete variant-2 input bundle with the same sweep as `wIn1`. -/
def wIn2 : Inputs2 :=
  ⟨satA, altSched, "ISS", 25544, 55, 37, 150, 0, 2, 1, 10, 1000⟩

/-- Concrete variant-1 input bundle: a single instant with elevation 1/3°
above a 0° threshold. -/
def cIn1third : Inputs1 :=
  ⟨satA, altThird, "ISS", 25544, 55, 37, 150, 0, 0, 1, 0⟩

/-- Concrete variant-2 input bundle: a single instant with elevation 10.004°
against the threshold 10.001°. -/
def cIn2near : Inputs2 :=
  ⟨satA, altNear, "ISS", 25544, 55, 37, 150, 0, 0, 1, 10001/1000, 1000⟩

lemma Rat.floor_eq_intFloor (q : ℚ) : q.floor = ⌊q⌋ :=
  (Rat.floor_def' q).trans Rat.floor_def.symm

lemma roundHalfEven_ge_floor (q : ℚ) : ⌊q⌋ ≤ roundHalfEven q := by
  unfold roundHalfEven
  rw [Rat.floor_eq_intFloor]
  split_ifs <;> omega

lemma roundHalfEven_le_floor_add_one (q : ℚ) : roundHalfEven q ≤ ⌊q⌋ + 1 := by
  unfold roundHalfEven
  rw [Rat.floor_eq_intFloor]
  split_ifs <;> omega

lemma roundHalfEven_mono : Monotone roundHalfEven := by
  intro a b hab
  rcases lt_or_eq_of_le (Int.floor_le_floor hab) with hf | hf
  · have h1 := roundHalfEven_le_floor_add_one a
    have h2 := roundHalfEven_ge_floor b
    omega
  · unfold roundHalfEven
    rw [Rat.floor_eq_intFloor, Rat.floor_eq_intFloor, ← hf]
    have hfl : (⌊a⌋ : ℚ) = (⌊b⌋ : ℚ) := by exact_mod_cast hf
    split_ifs <;> first | omega | linarith

lemma roundTo_mono (n : ℕ) : Monotone (roundTo n) := by
  intro a b hab
  unfold roundTo
  have hp : (0:ℚ) < 10 ^ n := by positivity
  have h1 : a * 10 ^ n ≤ b * 10 ^ n :=
    mul_le_mul_of_nonneg_right hab (le_of_lt hp)
  have h2 : ((roundHalfEven (a * 10 ^ n) : ℤ) : ℚ) ≤ (roundHalfEven (b * 10 ^ n) : ℤ) := by
    exact_mod_cast roundHalfEven_mono h1
  exact (div_le_div_iff_of_pos_right hp).mpr h2

lemma roundTo_map_max (n : ℕ) (a b : ℚ) :
    roundTo n (max a b) = max (roundTo n a) (roundTo n b) :=
  (roundTo_mono n).map_max

lemma allPasses1_none {s : State1} (hcp : s.current_pass = none) :
    allPasses1 s = s.passes_data := by
  simp [allPasses1, optList, hcp]

lemma allPasses1_some {s : State1} {p : Pass1} (hcp : s.current_pass = some p) :
    allPasses1 s = s.passes_data ++ [p] := by
  simp [allPasses1, optList, hcp]

lemma mem_of_getLast? {α : Type*} {l : List α} {x : α} (h : x ∈ l.getLast?) :
    x ∈ l := by
  obtain ⟨hne, rfl⟩ := List.mem_getLast?_eq_getLast h
  exact List.getLast_mem hne

lemma chain'_append_singleton {α : Type*} {R : α → α → Prop} {l : List α} {p : α} :
    (l ++ [p]).Chain' R ↔ l.Chain' R ∧ ∀ x ∈ l.getLast?, R x p := by
  rw [List.chain'_append]
  simp

lemma inv1_mono {m b b' : ℚ} {s : State1} (h : Inv1 m s b) (hbb : b ≤ b') :
    Inv1 m s b' :=
  ⟨h.ids, h.chain, fun p hp => ⟨(h.wf p hp).1, (h.wf p hp).2.trans hbb⟩,
   h.maxel, h.eph⟩

lemma inv1_init (m b : ℚ) : Inv1 m init1 b := by
  constructor <;> simp [allPasses1, init1, optList, List.range']

lemma inv1_open {m b t alt d0 : ℚ} {s : State1} {E : EphemerisEntry1}
    (h : Inv1 m s b) (hbt : b < t) (hv : m ≤ alt)
    (hcp : s.current_pass = none) (he : E.pass_id = s.pass_counter + 1) :
    Inv1 m ⟨s.passes_data, s.ephemeris_data ++ [E], s.pass_counter + 1,
      some ⟨s.pass_counter + 1, t, t, alt, d0⟩⟩ t := by
  have hids := h.ids
  have hchain := h.chain
  rw [allPasses1_none hcp] at hids hchain
  constructor
  · show (s.passes_data ++ [_]).map Pass1.pass_id = _
    rw [List.map_append, hids, List.range'_concat]
    simp [Nat.add_comm]
  · show (s.passes_data ++ [_]).Chain' _
    refine chain'_append_singleton.mpr ⟨hchain, fun x hx => ?_⟩
    have hxm : x ∈ allPasses1 s := by
      rw [allPasses1_none hcp]; exact mem_of_getLast? hx
    exact lt_of_le_of_lt (h.wf x hxm).2 hbt
  · intro q hq
    rcases List.mem_append.mp hq with hq | hq
    · have hqm : q ∈ allPasses1 s := by rw [allPasses1_none hcp]; exact hq
      exact ⟨(h.wf q hqm).1, (h.wf q hqm).2.trans hbt.le⟩
    · rw [List.mem_singleton.mp hq]
      exact ⟨le_refl t, le_refl t⟩
  · intro q hq
    rcases List.mem_append.mp hq with hq | hq
    · have hqm : q ∈ allPasses1 s := by rw [allPasses1_none hcp]; exact hq
      exact h.maxel q hqm
    · rw [List.mem_singleton.mp hq]
      exact hv
  · intro e he'
    dsimp only at he' ⊢
    rcases List.mem_append.mp he' with he' | he'
    · have := h.eph e he'
      omega
    · rw [List.mem_singleton.mp he', he]
      omega

lemma inv1_counter_pos {m b : ℚ} {s : State1} {p : Pass1}
    (h : Inv1 m s b) (hcp : s.current_pass = some p) : 1 ≤ s.pass_counter := by
  have hids := h.ids
  rw [allPasses1_some hcp] at hids
  have hlen := congrArg List.length hids
  simp [List.length_range'] at hlen
  omega

lemma inv1_update {m b t M : ℚ} {s : State1} {p : Pass1} {E : EphemerisEntry1}
    (h : Inv1 m s b) (hbt : b < t)
    (hcp : s.current_pass = some p) (he : E.pass_id = s.pass_counter)
    (hM : p.max_elevation ≤ M) :
    Inv1 m ⟨s.passes_data, s.ephemeris_data ++ [E], s.pass_counter,
      some ⟨p.pass_id, p.start, t, M, p.duration_sec⟩⟩ t := by
  have hids := h.ids
  have hchain := h.chain
  rw [allPasses1_some hcp] at hids hchain
  have hpm : p ∈ allPasses1 s := by
    rw [allPasses1_some hcp]
    exact List.mem_append_right _ (List.mem_singleton.mpr rfl)
  obtain ⟨hc, hlink⟩ := chain'_append_singleton.mp hchain
  constructor
  · show (s.passes_data ++ [_]).map Pass1.pass_id = _
    rw [List.map_append] at hids ⊢
    exact hids
  · exact chain'_append_singleton.mpr ⟨hc, fun x hx => hlink x hx⟩
  · intro q hq
    rcases List.mem_append.mp hq with hq | hq
    · have hqm : q ∈ allPasses1 s := by
        rw [allPasses1_some hcp]; exact List.mem_append_left _ hq
      exact ⟨(h.wf q hqm).1, (h.wf q hqm).2.trans hbt.le⟩
    · rw [List.mem_singleton.mp hq]
      refine ⟨le_trans (h.wf p hpm).1 (le_trans (h.wf p hpm).2 hbt.le), le_refl t⟩
  · intro q hq
    rcases List.mem_append.mp hq with hq | hq
    · have hqm : q ∈ allPasses1 s := by
        rw [allPasses1_some hcp]; exact List.mem_append_left _ hq
      exact h.maxel q hqm
    · rw [List.mem_singleton.mp hq]
      exact le_trans (h.maxel p hpm) hM
  · intro e he'
    rcases List.mem_append.mp he' with he' | he'
    · exact h.eph e he'
    · rw [List.mem_singleton.mp he', he]
      exact ⟨inv1_counter_pos h hcp, le_refl _⟩

lemma inv1_close {m b : ℚ} {s : State1} {p : Pass1}
    (h : Inv1 m s b) (hcp : s.current_pass = some p) :
    Inv1 m ⟨s.passes_data ++ [closePass1 p], s.ephemeris_data,
      s.pass_counter, none⟩ b := by
  have hids := h.ids
  have hchain := h.chain
  rw [allPasses1_some hcp] at hids hchain
  have hpm : p ∈ allPasses1 s := by
    rw [allPasses1_some hcp]
    exact List.mem_append_right _ (List.mem_singleton.mpr rfl)
  obtain ⟨hc, hlink⟩ := chain'_append_singleton.mp hchain
  have hall : allPasses1 ⟨s.passes_data ++ [closePass1 p], s.ephemeris_data,
      s.pass_counter, none⟩ = s.passes_data ++ [closePass1 p] := by
    simp [allPasses1, optList]
  constructor
  · dsimp only
    rw [hall, List.map_append]
    rw [List.map_append] at hids
    have hmap : List.map Pass1.pass_id [closePass1 p] = List.map Pass1.pass_id [p] := by
      simp [closePass1]
    rw [hmap]
    exact hids
  · rw [hall]
    exact chain'_append_singleton.mpr ⟨hc, fun x hx => hlink x hx⟩
  · rw [hall]
    intro q hq
    rcases List.mem_append.mp hq with hq | hq
    · have hqm : q ∈ allPasses1 s := by
        rw [allPasses1_some hcp]; exact List.mem_append_left _ hq
      exact h.wf q hqm
    · rw [List.mem_singleton.mp hq]
      exact (h.wf p hpm)
  · rw [hall]
    intro q hq
    rcases List.mem_append.mp hq with hq | hq
    · have hqm : q ∈ allPasses1 s := by
        rw [allPasses1_some hcp]; exact List.mem_append_left _ hq
      exact h.maxel q hqm
    · rw [List.mem_singleton.mp hq]
      exact h.maxel p hpm
  · exact h.eph

lemma inv1_step {m b t : ℚ} {s : State1} (sa : ℚ → Option SatPos)
    (aa : ℚ → ℚ → Option AltAz) (h : Inv1 m s b) (hbt : b < t) :
    Inv1 m (step1 sa aa m s t) t := by
  have hmono : Inv1 m s t := inv1_mono h hbt.le
  unfold step1
  cases hsa : sa t with
  | none => exact hmono
  | some sat =>
    show Inv1 m (handleSample1 sat m s t (aa t (t_obs t sat.distKm))) t
    cases haa : aa t (t_obs t sat.distKm) with
    | none => exact hmono
    | some g =>
      simp only [handleSample1]
      by_cases hv : g.altDeg ≥ m
      · rw [if_pos hv]
        cases hcp : s.current_pass with
        | none => exact inv1_open h hbt hv hcp rfl
        | some p => exact inv1_update h hbt hcp rfl (le_max_left _ _)
      · rw [if_neg hv]
        cases hcp : s.current_pass with
        | none => exact hmono
        | some p => exact inv1_mono (inv1_close h hcp) hbt.le

lemma inv1_foldl {m : ℚ} (sa : ℚ → Option SatPos) (aa : ℚ → ℚ → Option AltAz) :
    ∀ (l : List ℚ) (s : State1) (b : ℚ), Inv1 m s b →
      List.Chain (· < ·) b l →
      ∃ b', Inv1 m (l.foldl (step1 sa aa m) s) b' := by
  intro l
  induction l with
  | nil => exact fun s b h _ => ⟨b, h⟩
  | cons t l ih =>
    intro s b h hchain
    rw [List.chain_cons] at hchain
    exact ih (step1 sa aa m s t) t (inv1_step sa aa h hchain.1) hchain.2

lemma chain_gridList {step : ℤ} (hs : 0 < step) :
    ∀ (n : ℕ) (t0 b : ℚ), b < t0 → List.Chain (· < ·) b (gridList t0 step n) := by
  intro n
  induction n with
  | zero => exact fun _ _ _ => List.Chain.nil
  | succ n ih =>
    intro t0 b hb
    refine List.Chain.cons hb (ih (t0 + step) t0 ?_)
    have : (0 : ℚ) < (step : ℚ) := by exact_mod_cast hs
    linarith

lemma chain_gridTimes {step : ℤ} (hs : 0 < step) (t0 tEnd : ℚ) :
    List.Chain (· < ·) (t0 - 1) (gridTimes t0 tEnd step) := by
  unfold gridTimes
  split_ifs
  · exact chain_gridList hs _ _ _ (by linarith)
  · exact List.Chain.nil

lemma inv1_finalize {m b : ℚ} {s : State1} (h : Inv1 m s b) :
    Inv1 m (finalize1 s) b ∧ (finalize1 s).current_pass = none ∧
      (finalize1 s).pass_counter = s.pass_counter ∧
      (finalize1 s).ephemeris_data = s.ephemeris_data := by
  unfold finalize1
  cases hcp : s.current_pass with
  | none => exact ⟨h, hcp, rfl, rfl⟩
  | some p => exact ⟨inv1_close h hcp, rfl, rfl, rfl⟩

lemma run1_props (sa : ℚ → Option SatPos) (aa : ℚ → ℚ → Option AltAz)
    (m t0 tEnd : ℚ) (step : ℤ) (hs : 0 < step) :
    ((run1 sa aa m t0 tEnd step).passes_data.map Pass1.pass_id
        = List.range' 1 (run1 sa aa m t0 tEnd step).pass_counter)
    ∧ (run1 sa aa m t0 tEnd step).passes_data.Chain'
        (fun p q => p.endTime < q.start)
    ∧ (∀ p ∈ (run1 sa aa m t0 tEnd step).passes_data, p.start ≤ p.endTime)
    ∧ (∀ p ∈ (run1 sa aa m t0 tEnd step).passes_data, m ≤ p.max_elevation)
    ∧ (∀ e ∈ (run1 sa aa m t0 tEnd step).ephemeris_data,
        1 ≤ e.pass_id ∧ e.pass_id ≤ (run1 sa aa m t0 tEnd step).pass_counter) := by
  unfold run1
  obtain ⟨b, hinv⟩ := inv1_foldl sa aa (gridTimes t0 tEnd step) init1 (t0 - 1)
    (inv1_init m (t0 - 1)) (chain_gridTimes hs t0 tEnd)
  obtain ⟨hfin, hnone, -, -⟩ := inv1_finalize hinv
  have hall := allPasses1_none hnone
  have hids := hfin.ids
  have hchain := hfin.chain
  rw [hall] at hids hchain
  refine ⟨hids, hchain, ?_, ?_, hfin.eph⟩
  · intro p hp
    exact (hfin.wf p (by rw [hall]; exact hp)).1
  · intro p hp
    exact hfin.maxel p (by rw [hall]; exact hp)

lemma allPasses2_none {s : State2} (hcp : s.current_pass = none) :
    allPasses2 s = s.passes := by
  simp [allPasses2, optList, hcp]

lemma allPasses2_some {s : State2} {p : Pass2} (hcp : s.current_pass = some p) :
    allPasses2 s = s.passes ++ [p] := by
  simp [allPasses2, optList, hcp]

lemma inv2_mono {m b b' : ℚ} {s : State2} (h : Inv2 m s b) (hbb : b ≤ b') :
    Inv2 m s b' :=
  ⟨h.ids, h.chain, fun p hp => ⟨(h.wf p hp).1, (h.wf p hp).2.trans hbb⟩,
   h.maxel, h.eph⟩

lemma inv2_init (m b : ℚ) : Inv2 m init2 b := by
  constructor <;> simp [allPasses2, init2, optList, List.range']

lemma inv2_open {m b t alt d0 : ℚ} {s : State2} {E : EphemerisEntry2}
    {evs : List EphemerisEntry2}
    (h : Inv2 m s b) (hbt : b < t) (hv : roundTo 2 m ≤ alt)
    (hcp : s.current_pass = none) (he : E.pass_id = s.pass_number + 1) :
    Inv2 m ⟨s.passes, s.ephemeris ++ [E], s.pass_number + 1,
      some ⟨s.pass_number + 1, t, t, alt, d0, evs⟩⟩ t := by
  have hids := h.ids
  have hchain := h.chain
  rw [allPasses2_none hcp] at hids hchain
  constructor
  · show (s.passes ++ [_]).map Pass2.pass_id = _
    rw [List.map_append, hids, List.range'_concat]
    simp [Nat.add_comm]
  · show (s.passes ++ [_]).Chain' _
    refine chain'_append_singleton.mpr ⟨hchain, fun x hx => ?_⟩
    have hxm : x ∈ allPasses2 s := by
      rw [allPasses2_none hcp]; exact mem_of_getLast? hx
    exact lt_of_le_of_lt (h.wf x hxm).2 hbt
  · intro q hq
    rcases List.mem_append.mp hq with hq | hq
    · have hqm : q ∈ allPasses2 s := by rw [allPasses2_none hcp]; exact hq
      exact ⟨(h.wf q hqm).1, (h.wf q hqm).2.trans hbt.le⟩
    · rw [List.mem_singleton.mp hq]
      exact ⟨le_refl t, le_refl t⟩
  · intro q hq
    rcases List.mem_append.mp hq with hq | hq
    · have hqm : q ∈ allPasses2 s := by rw [allPasses2_none hcp]; exact hq
      exact h.maxel q hqm
    · rw [List.mem_singleton.mp hq]
      exact hv
  · intro e he'
    dsimp only at he' ⊢
    rcases List.mem_append.mp he' with he' | he'
    · have := h.eph e he'
      omega
    · rw [List.mem_singleton.mp he', he]
      omega

lemma inv2_counter_pos {m b : ℚ} {s : State2} {p : Pass2}
    (h : Inv2 m s b) (hcp : s.current_pass = some p) : 1 ≤ s.pass_number := by
  have hids := h.ids
  rw [allPasses2_some hcp] at hids
  have hlen := congrArg List.length hids
  simp [List.length_range'] at hlen
  omega

lemma inv2_update {m b t M : ℚ} {s : State2} {p : Pass2} {E : EphemerisEntry2}
    {evs : List EphemerisEntry2}
    (h : Inv2 m s b) (hbt : b < t)
    (hcp : s.current_pass = some p) (he : E.pass_id = s.pass_number)
    (hM : p.max_elevation ≤ M) :
    Inv2 m ⟨s.passes, s.ephemeris ++ [E], s.pass_number,
      some ⟨p.pass_id, p.start, t, M, p.duration_sec, evs⟩⟩ t := by
  have hids := h.ids
  have hchain := h.chain
  rw [allPasses2_some hcp] at hids hchain
  have hpm : p ∈ allPasses2 s := by
    rw [allPasses2_some hcp]
    exact List.mem_append_right _ (List.mem_singleton.mpr rfl)
  obtain ⟨hc, hlink⟩ := chain'_append_singleton.mp hchain
  constructor
  · show (s.passes ++ [_]).map Pass2.pass_id = _
    rw [List.map_append] at hids ⊢
    exact hids
  · exact chain'_append_singleton.mpr ⟨hc, fun x hx => hlink x hx⟩
  · intro q hq
    rcases List.mem_append.mp hq with hq | hq
    · have hqm : q ∈ allPasses2 s := by
        rw [allPasses2_some hcp]; exact List.mem_append_left _ hq
      exact ⟨(h.wf q hqm).1, (h.wf q hqm).2.trans hbt.le⟩
    · rw [List.mem_singleton.mp hq]
      refine ⟨le_trans (h.wf p hpm).1 (le_trans (h.wf p hpm).2 hbt.le), le_refl t⟩
  · intro q hq
    rcases List.mem_append.mp hq with hq | hq
    · have hqm : q ∈ allPasses2 s := by
        rw [allPasses2_some hcp]; exact List.mem_append_left _ hq
      exact h.maxel q hqm
    · rw [List.mem_singleton.mp hq]
      exact le_trans (h.maxel p hpm) hM
  · intro e he'
    dsimp only at he' ⊢
    rcases List.mem_append.mp he' with he' | he'
    · exact h.eph e he'
    · rw [List.mem_singleton.mp he', he]
      exact ⟨inv2_counter_pos h hcp, le_refl _⟩

lemma inv2_close {m b : ℚ} {s : State2} {p : Pass2}
    (h : Inv2 m s b) (hcp : s.current_pass = some p) :
    Inv2 m ⟨s.passes ++ [closePass2 p], s.ephemeris,
      s.pass_number, none⟩ b := by
  have hids := h.ids
  have hchain := h.chain
  rw [allPasses2_some hcp] at hids hchain
  have hpm : p ∈ allPasses2 s := by
    rw [allPasses2_some hcp]
    exact List.mem_append_right _ (List.mem_singleton.mpr rfl)
  obtain ⟨hc, hlink⟩ := chain'_append_singleton.mp hchain
  have hall : allPasses2 ⟨s.passes ++ [closePass2 p], s.ephemeris,
      s.pass_number, none⟩ = s.passes ++ [closePass2 p] := by
    simp [allPasses2, optList]
  constructor
  · dsimp only
    rw [hall, List.map_append]
    rw [List.map_append] at hids
    have hmap : List.map Pass2.pass_id [closePass2 p] = List.map Pass2.pass_id [p] := by
      simp [closePass2]
    rw [hmap]
    exact hids
  · rw [hall]
    exact chain'_append_singleton.mpr ⟨hc, fun x hx => hlink x hx⟩
  · rw [hall]
    intro q hq
    rcases List.mem_append.mp hq with hq | hq
    · have hqm : q ∈ allPasses2 s := by
        rw [allPasses2_some hcp]; exact List.mem_append_left _ hq
      exact h.wf q hqm
    · rw [List.mem_singleton.mp hq]
      exact (h.wf p hpm)
  · rw [hall]
    intro q hq
    rcases List.mem_append.mp hq with hq | hq
    · have hqm : q ∈ allPasses2 s := by
        rw [allPasses2_some hcp]; exact List.mem_append_left _ hq
      exact h.maxel q hqm
    · rw [List.mem_singleton.mp hq]
      exact h.maxel p hpm
  · exact h.eph

lemma inv2_step {m b t : ℚ} {s : State2} (sa : ℚ → Option SatPos)
    (aa : ℚ → ℚ → Option AltAz) (h : Inv2 m s b) (hbt : b < t) :
    Inv2 m (step2 sa aa m s t) t := by
  have hmono : Inv2 m s t := inv2_mono h hbt.le
  unfold step2
  cases hsa : sa t with
  | none => exact hmono
  | some sat =>
    show Inv2 m (handleSample2 sat m s t (aa t t)) t
    cases haa : aa t t with
    | none => exact hmono
    | some g =>
      simp only [handleSample2]
      by_cases hv : g.altDeg ≥ m
      · rw [if_pos hv]
        cases hcp : s.current_pass with
        | none => exact inv2_open h hbt (roundTo_mono 2 hv) hcp rfl
        | some p => exact inv2_update h hbt hcp rfl (le_max_left _ _)
      · rw [if_neg hv]
        cases hcp : s.current_pass with
        | none => exact hmono
        | some p => exact inv2_mono (inv2_close h hcp) hbt.le

lemma inv2_foldl {m : ℚ} (sa : ℚ → Option SatPos) (aa : ℚ → ℚ → Option AltAz) :
    ∀ (l : List ℚ) (s : State2) (b : ℚ), Inv2 m s b →
      List.Chain (· < ·) b l →
      ∃ b', Inv2 m (l.foldl (step2 sa aa m) s) b' := by
  intro l
  induction l with
  | nil => exact fun s b h _ => ⟨b, h⟩
  | cons t l ih =>
    intro s b h hchain
    rw [List.chain_cons] at hchain
    exact ih (step2 sa aa m s t) t (inv2_step sa aa h hchain.1) hchain.2

lemma inv2_finalize {m b : ℚ} {s : State2} (h : Inv2 m s b) :
    Inv2 m (finalize2 s) b ∧ (finalize2 s).current_pass = none ∧
      (finalize2 s).pass_number = s.pass_number ∧
      (finalize2 s).ephemeris = s.ephemeris := by
  unfold finalize2
  cases hcp : s.current_pass with
  | none => exact ⟨h, hcp, rfl, rfl⟩
  | some p => exact ⟨inv2_close h hcp, rfl, rfl, rfl⟩

lemma run2_props (sa : ℚ → Option SatPos) (aa : ℚ → ℚ → Option AltAz)
    (m t0 tEnd : ℚ) (step : ℤ) (hs : 0 < step) :
    ((run2 sa aa m t0 tEnd step).passes.map Pass2.pass_id
        = List.range' 1 (run2 sa aa m t0 tEnd step).pass_number)
    ∧ (run2 sa aa m t0 tEnd step).passes.Chain'
        (fun p q => p.endTime < q.start)
    ∧ (∀ p ∈ (run2 sa aa m t0 tEnd step).passes, p.start ≤ p.endTime)
    ∧ (∀ p ∈ (run2 sa aa m t0 tEnd step).passes, roundTo 2 m ≤ p.max_elevation)
    ∧ (∀ e ∈ (run2 sa aa m t0 tEnd step).ephemeris,
        1 ≤ e.pass_id ∧ e.pass_id ≤ (run2 sa aa m t0 tEnd step).pass_number) := by
  unfold run2
  obtain ⟨b, hinv⟩ := inv2_foldl sa aa (gridTimes t0 tEnd step) init2 (t0 - 1)
    (inv2_init m (t0 - 1)) (chain_gridTimes hs t0 tEnd)
  obtain ⟨hfin, hnone, -, -⟩ := inv2_finalize hinv
  have hall := allPasses2_none hnone
  have hids := hfin.ids
  have hchain := hfin.chain
  rw [hall] at hids hchain
  refine ⟨hids, hchain, ?_, ?_, hfin.eph⟩
  · intro p hp
    exact (hfin.wf p (by rw [hall]; exact hp)).1
  · intro p hp
    exact hfin.maxel p (by rw [hall]; exact hp)

lemma chain'_lt_of_nonoverlap {α : Type*} (s e : α → ℚ) :
    ∀ l : List α, (∀ p ∈ l, s p ≤ e p) →
      l.Chain' (fun p q => e p < s q) → l.Chain' (fun p q => s p < s q) := by
  intro l
  induction l with
  | nil => intro _ _; exact List.chain'_nil
  | cons a l ih =>
    intro hwf hch
    cases l with
    | nil => exact List.chain'_singleton a
    | cons b l2 =>
      rw [List.chain'_cons] at hch ⊢
      refine ⟨lt_of_le_of_lt (hwf a (List.mem_cons_self a (b :: l2))) hch.1,
        ih (fun p hp => hwf p (List.mem_cons_of_mem a hp)) hch.2⟩

lemma pairwise_of_chain'_lt {α : Type*} (f : α → ℚ) (l : List α)
    (h : l.Chain' (fun p q => f p < f q)) :
    l.Pairwise (fun p q => f p < f q) := by
  have h2 : (l.map f).Chain' (· < ·) := (List.chain'_map f).mpr h
  have h3 : (l.map f).Pairwise (· < ·) := List.chain'_iff_pairwise.mp h2
  exact List.pairwise_map.mp h3

lemma countP_eq_one_of_ids {α : Type*} (pid : α → ℕ) {l : List α} {n k : ℕ}
    (hids : l.map pid = List.range' 1 n) (h1 : 1 ≤ k) (h2 : k ≤ n) :
    l.countP (fun p => pid p == k) = 1 := by
  have h3 : List.countP (fun x => x == k) (l.map pid) = 1 := by
    rw [hids]
    have hnd : (List.range' 1 n).Nodup := List.nodup_range' 1 n
    have hmem : k ∈ List.range' 1 n := List.mem_range'_1.mpr ⟨h1, by omega⟩
    exact List.count_eq_one_of_mem hnd hmem
  rw [List.countP_map] at h3
  exact h3

/-- C6: in every produced passes report (of either variant), the pass list
is ordered by start_time, consecutive passes do not overlap
(`passes[i].end_time < passes[i+1].start_time` for every i, stated as
`Chain'` over consecutive elements, with the full `Pairwise` ordering of
start times derived), and every pass satisfies `end_time ≥ start_time`. -/
theorem claim_C6_pass_list_order (i1 : Inputs1) (i2 : Inputs2)
    (h1 : 0 < i1.step_seconds) (h2 : 0 < i2.step_seconds) :
    ((calculate_and_save_data1 i1).1.passes.Chain'
        (fun p q => p.endTime < q.start)
      ∧ (calculate_and_save_data1 i1).1.passes.Pairwise
        (fun p q => p.start < q.start)
      ∧ ((calculate_and_save_data1 i1).1.passes.all
          (fun p => decide (p.start ≤ p.endTime))) = true)
    ∧ ((calculate_and_save_data2 i2).1.passes.Chain'
        (fun p q => p.endTime < q.start)
      ∧ (calculate_and_save_data2 i2).1.passes.Pairwise
        (fun p q => p.start < q.start)
      ∧ ((calculate_and_save_data2 i2).1.passes.all
          (fun p => decide (p.start ≤ p.endTime))) = true) := by
  obtain ⟨-, hchain1, hwf1, -, -⟩ := run1_props i1.satAt i1.altazAt
    i1.min_elevation i1.start_time_utc i1.end_time_utc i1.step_seconds h1
  obtain ⟨-, hchain2, hwf2, -, -⟩ := run2_props i2.satAt i2.altazAt
    i2.min_elevation i2.start_time_utc i2.end_time_utc i2.step_seconds h2
  exact ⟨⟨hchain1,
      pairwise_of_chain'_lt Pass1.start _
        (chain'_lt_of_nonoverlap Pass1.start Pass1.endTime _ hwf1 hchain1),
      List.all_eq_true.mpr (fun p hp => decide_eq_true (hwf1 p hp))⟩,
    ⟨hchain2,
      pairwise_of_chain'_lt Pass2.start _
        (chain'_lt_of_nonoverlap Pass2.start Pass2.endTime _ hwf2 hchain2),
      List.all_eq_true.mpr (fun p hp => decide_eq_true (hwf2 p hp))⟩⟩

/-- Witness for C6 at a concrete three-instant sweep producing two passes. -/
theorem claim_C6_witness :
    (0 < wIn1.step_seconds ∧ 0 < wIn2.step_seconds)
    ∧ (((calculate_and_save_data1 wIn1).1.passes.Chain'
        (fun p q => p.endTime < q.start)
      ∧ (calculate_and_save_data1 wIn1).1.passes.Pairwise
        (fun p q => p.start < q.start)
      ∧ ((calculate_and_save_data1 wIn1).1.passes.all
          (fun p => decide (p.start ≤ p.endTime))) = true)
    ∧ ((calculate_and_save_data2 wIn2).1.passes.Chain'
        (fun p q => p.endTime < q.start)
      ∧ (calculate_and_save_data2 wIn2).1.passes.Pairwise
        (fun p q => p.start < q.start)
      ∧ ((calculate_and_save_data2 wIn2).1.passes.all
          (fun p => decide (p.start ≤ p.endTime))) = true)) :=
  ⟨⟨by decide, by decide⟩,
   claim_C6_pass_list_order wIn1 wIn2 (by decide) (by decide)⟩

/-- C7: in every produced passes report, the pass_id values are exactly
`1..total_passes` in start-time order with no gaps or repeats (the id list
equals `List.range' 1 total_passes`), and `total_passes` equals the final
pass counter of the sweep and hence the length of the pass list. -/
theorem claim_C7_pass_id_numbering (i1 : Inputs1) (i2 : Inputs2)
    (h1 : 0 < i1.step_seconds) (h2 : 0 < i2.step_seconds) :
    ((calculate_and_save_data1 i1).1.passes.map Pass1.pass_id
        = List.range' 1 (calculate_and_save_data1 i1).1.total_passes
      ∧ (calculate_and_save_data1 i1).1.total_passes
        = (run1 i1.satAt i1.altazAt i1.min_elevation i1.start_time_utc
            i1.end_time_utc i1.step_seconds).pass_counter
      ∧ (calculate_and_save_data1 i1).1.total_passes
        = (calculate_and_save_data1 i1).1.passes.length)
    ∧ ((calculate_and_save_data2 i2).1.statistics.total_passes
        = (run2 i2.satAt i2.altazAt i2.min_elevation i2.start_time_utc
            i2.end_time_utc i2.step_seconds).pass_number
      ∧ (calculate_and_save_data2 i2).1.passes.map Pass2.pass_id
        = List.range' 1 (calculate_and_save_data2 i2).1.statistics.total_passes
      ∧ (calculate_and_save_data2 i2).1.statistics.total_passes
        = (calculate_and_save_data2 i2).1.passes.length) := by
  obtain ⟨hids1, -, -, -, -⟩ := run1_props i1.satAt i1.altazAt
    i1.min_elevation i1.start_time_utc i1.end_time_utc i1.step_seconds h1
  obtain ⟨hids2, -, -, -, -⟩ := run2_props i2.satAt i2.altazAt
    i2.min_elevation i2.start_time_utc i2.end_time_utc i2.step_seconds h2
  refine ⟨⟨hids1, rfl, ?_⟩, ⟨rfl, hids2, ?_⟩⟩
  · have hlen := congrArg List.length hids1
    simp only [List.length_map, List.length_range'] at hlen
    exact hlen.symm
  · have hlen := congrArg List.length hids2
    simp only [List.length_map, List.length_range'] at hlen
    exact hlen.symm

/-- Witness for C7 at a concrete three-instant sweep producing two passes. -/
theorem claim_C7_witness :
    (0 < wIn1.step_seconds ∧ 0 < wIn2.step_seconds)
    ∧ (calculate_and_save_data1 wIn1).1.passes.map Pass1.pass_id
        = List.range' 1 (calculate_and_save_data1 wIn1).1.total_passes
    ∧ (calculate_and_save_data2 wIn2).1.statistics.total_passes
        = (calculate_and_save_data2 wIn2).1.passes.length :=
  ⟨⟨by decide, by decide⟩,
   (claim_C7_pass_id_numbering wIn1 wIn2 (by decide) (by decide)).1.1,
   (claim_C7_pass_id_numbering wIn1 wIn2 (by decide) (by decide)).2.2.2⟩

/-- C8: every ephemeris record of either variant's ephemeris report carries
a pass_id matching exactly one pass of the corresponding passes report
(stated via `countP`: the number of passes with that id is one). -/
theorem claim_C8_ephemeris_closure (i1 : Inputs1) (i2 : Inputs2)
    (h1 : 0 < i1.step_seconds) (h2 : 0 < i2.step_seconds) :
    ((calculate_and_save_data1 i1).2.ephemeris.all (fun e =>
        (calculate_and_save_data1 i1).1.passes.countP
          (fun p => p.pass_id == e.pass_id) == 1)) = true
    ∧ ((calculate_and_save_data2 i2).2.ephemeris.all (fun e =>
        (calculate_and_save_data2 i2).1.passes.countP
          (fun p => p.pass_id == e.pass_id) == 1)) = true := by
  obtain ⟨hids1, -, -, -, heph1⟩ := run1_props i1.satAt i1.altazAt
    i1.min_elevation i1.start_time_utc i1.end_time_utc i1.step_seconds h1
  obtain ⟨hids2, -, -, -, heph2⟩ := run2_props i2.satAt i2.altazAt
    i2.min_elevation i2.start_time_utc i2.end_time_utc i2.step_seconds h2
  constructor
  · refine List.all_eq_true.mpr (fun e he => ?_)
    have hb := heph1 e he
    exact beq_iff_eq.mpr (countP_eq_one_of_ids Pass1.pass_id hids1 hb.1 hb.2)
  · refine List.all_eq_true.mpr (fun e he => ?_)
    have hb := heph2 e he
    exact beq_iff_eq.mpr (countP_eq_one_of_ids Pass2.pass_id hids2 hb.1 hb.2)

/-- Witness for C8 at a concrete three-instant sweep with two passes and
two ephemeris records. -/
theorem claim_C8_witness :
    (0 < wIn1.step_seconds ∧ 0 < wIn2.step_seconds)
    ∧ ((calculate_and_save_data1 wIn1).2.ephemeris.all (fun e =>
        (calculate_and_save_data1 wIn1).1.passes.countP
          (fun p => p.pass_id == e.pass_id) == 1)) = true
    ∧ ((calculate_and_save_data2 wIn2).2.ephemeris.all (fun e =>
        (calculate_and_save_data2 wIn2).1.passes.countP
          (fun p => p.pass_id == e.pass_id) == 1)) = true :=
  ⟨⟨by decide, by decide⟩,
   (claim_C8_ephemeris_closure wIn1 wIn2 (by decide) (by decide)).1,
   (claim_C8_ephemeris_closure wIn1 wIn2 (by decide) (by decide)).2⟩

/-- C10 (amended): every pass emitted by variant 1 has
`max_elevation ≥ min_elevation` as claimed, since variant 1 stores raw
elevations; in variant 2, which rounds each elevation to 2 decimals before
it enters `max_elevation`, the invariant that survives is the weaker
`max_elevation ≥ roundTo 2 min_elevation` — the stored maximum can drop
below the raw threshold by up to half of the last rounding digit. -/
theorem claim_C10_amended (i1 : Inputs1) (i2 : Inputs2)
    (h1 : 0 < i1.step_seconds) (h2 : 0 < i2.step_seconds) :
    ((calculate_and_save_data1 i1).1.passes.all
        (fun p => decide (i1.min_elevation ≤ p.max_elevation))) = true
    ∧ ((calculate_and_save_data2 i2).1.passes.all
        (fun p => decide (roundTo 2 i2.min_elevation ≤ p.max_elevation))) = true := by
  obtain ⟨-, -, -, hmax1, -⟩ := run1_props i1.satAt i1.altazAt
    i1.min_elevation i1.start_time_utc i1.end_time_utc i1.step_seconds h1
  obtain ⟨-, -, -, hmax2, -⟩ := run2_props i2.satAt i2.altazAt
    i2.min_elevation i2.start_time_utc i2.end_time_utc i2.step_seconds h2
  exact ⟨List.all_eq_true.mpr (fun p hp => decide_eq_true (hmax1 p hp)),
    List.all_eq_true.mpr (fun p hp => decide_eq_true (hmax2 p hp))⟩

/-- Witness for the amended C10 at a concrete three-instant sweep. -/
theorem claim_C10_witness :
    (0 < wIn1.step_seconds ∧ 0 < wIn2.step_seconds)
    ∧ ((calculate_and_save_data1 wIn1).1.passes.all
        (fun p => decide (wIn1.min_elevation ≤ p.max_elevation))) = true
    ∧ ((calculate_and_save_data2 wIn2).1.passes.all
        (fun p => decide (roundTo 2 wIn2.min_elevation ≤ p.max_elevation))) = true :=
  ⟨⟨by decide, by decide⟩,
   (claim_C10_amended wIn1 wIn2 (by decide) (by decide)).1,
   (claim_C10_amended wIn1 wIn2 (by decide) (by decide)).2⟩

/-- Counterexample to C10 as stated: with threshold 10.001° and a single
visible sample at elevation 10.004°, variant 2 emits a pass whose stored
`max_elevation` is `round(10.004, 2) = 10.0`, strictly below the
threshold. -/
theorem claim_C10_counterexample :
    cIn2near.min_elevation = 10001/1000
    ∧ (calculate_and_save_data2 cIn2near).1.passes.map Pass2.max_elevation = [10]
    ∧ ¬ ((10001/1000 : ℚ) ≤ 10) :=
  ⟨by decide, by decide, by decide⟩

/-- C1 (amended): both variants implement the two-state pass segmenter over
the chronologically ordered sample stream exactly as claimed — allocation
with `pass_id = counter + 1` and `start = end = t` on a not-visible-to-
visible transition (or a visible sample at sweep start), update of
`end_time` and of the running maximum on every further visible sample,
close with `duration_sec = end - start` on a visible-to-not-visible
transition, and the same closing for a pass still open after the last
step — except that variant 2 stores `round(elevation, 2)` rather than the
raw elevation in `max_elevation`, and rounds the closing duration to one
decimal. -/
theorem claim_C1_amended_segmenter (sa : ℚ → Option SatPos)
    (aa : ℚ → ℚ → Option AltAz) (m : ℚ) (s1 : State1) (s2 : State2)
    (t : ℚ) (sat : SatPos) (g : AltAz) (p1 : Pass1) (p2 : Pass2) :
    (sa t = some sat → aa t (t_obs t sat.distKm) = some g →
      ((g.altDeg ≥ m → s1.current_pass = none →
          step1 sa aa m s1 t =
            ⟨s1.passes_data,
             s1.ephemeris_data ++ [mkEntry1 (s1.pass_counter + 1) t sat g],
             s1.pass_counter + 1,
             some ⟨s1.pass_counter + 1, t, t, g.altDeg, 0⟩⟩)
        ∧ (g.altDeg ≥ m → s1.current_pass = some p1 →
          step1 sa aa m s1 t =
            ⟨s1.passes_data,
             s1.ephemeris_data ++ [mkEntry1 s1.pass_counter t sat g],
             s1.pass_counter,
             some ⟨p1.pass_id, p1.start, t,
               max p1.max_elevation g.altDeg, p1.duration_sec⟩⟩)
        ∧ (¬ g.altDeg ≥ m → s1.current_pass = some p1 →
          step1 sa aa m s1 t =
            ⟨s1.passes_data ++
              [⟨p1.pass_id, p1.start, p1.endTime, p1.max_elevation,
                p1.endTime - p1.start⟩],
             s1.ephemeris_data, s1.pass_counter, none⟩)
        ∧ (¬ g.altDeg ≥ m → s1.current_pass = none →
          step1 sa aa m s1 t = s1)))
    ∧ (sa t = some sat → aa t t = some g →
      ((g.altDeg ≥ m → s2.current_pass = none →
          step2 sa aa m s2 t =
            ⟨s2.passes,
             s2.ephemeris ++ [mkEntry2 (s2.pass_number + 1) t sat g],
             s2.pass_number + 1,
             some ⟨s2.pass_number + 1, t, t, roundTo 2 g.altDeg, 0,
               [mkEntry2 (s2.pass_number + 1) t sat g]⟩⟩)
        ∧ (g.altDeg ≥ m → s2.current_pass = some p2 →
          step2 sa aa m s2 t =
            ⟨s2.passes,
             s2.ephemeris ++ [mkEntry2 s2.pass_number t sat g],
             s2.pass_number,
             some ⟨p2.pass_id, p2.start, t,
               max p2.max_elevation (roundTo 2 g.altDeg), p2.duration_sec,
               p2.events ++ [mkEntry2 s2.pass_number t sat g]⟩⟩)
        ∧ (¬ g.altDeg ≥ m → s2.current_pass = some p2 →
          step2 sa aa m s2 t =
            ⟨s2.passes ++
              [⟨p2.pass_id, p2.start, p2.endTime, p2.max_elevation,
                roundTo 1 (p2.endTime - p2.start), p2.events⟩],
             s2.ephemeris, s2.pass_number, none⟩)
        ∧ (¬ g.altDeg ≥ m → s2.current_pass = none →
          step2 sa aa m s2 t = s2)))
    ∧ ((s1.current_pass = some p1 →
          finalize1 s1 =
            ⟨s1.passes_data ++
              [⟨p1.pass_id, p1.start, p1.endTime, p1.max_elevation,
                p1.endTime - p1.start⟩],
             s1.ephemeris_data, s1.pass_counter, none⟩)
        ∧ (s1.current_pass = none → finalize1 s1 = s1)
        ∧ (s2.current_pass = some p2 →
          finalize2 s2 =
            ⟨s2.passes ++
              [⟨p2.pass_id, p2.start, p2.endTime, p2.max_elevation,
                roundTo 1 (p2.endTime - p2.start), p2.events⟩],
             s2.ephemeris, s2.pass_number, none⟩)
        ∧ (s2.current_pass = none → finalize2 s2 = s2))
    ∧ (∀ t0 tEnd : ℚ, ∀ st : ℤ,
        run1 sa aa m t0 tEnd st
            = finalize1 ((gridTimes t0 tEnd st).foldl (step1 sa aa m) init1)
          ∧ run2 sa aa m t0 tEnd st
            = finalize2 ((gridTimes t0 tEnd st).foldl (step2 sa aa m) init2)) := by
  refine ⟨fun hsa haa => ⟨?_, ?_, ?_, ?_⟩, fun hsa haa => ⟨?_, ?_, ?_, ?_⟩,
    ⟨?_, ?_, ?_, ?_⟩, fun _ _ _ => ⟨rfl, rfl⟩⟩
  · intro hv hcp
    unfold step1
    rw [hsa]
    show handleSample1 sat m s1 t (aa t (t_obs t sat.distKm)) = _
    rw [haa]
    simp only [handleSample1]
    rw [if_pos hv, hcp]
  · intro hv hcp
    unfold step1
    rw [hsa]
    show handleSample1 sat m s1 t (aa t (t_obs t sat.distKm)) = _
    rw [haa]
    simp only [handleSample1]
    rw [if_pos hv, hcp]
  · intro hv hcp
    unfold step1
    rw [hsa]
    show handleSample1 sat m s1 t (aa t (t_obs t sat.distKm)) = _
    rw [haa]
    simp only [handleSample1]
    rw [if_neg hv, hcp]
    rfl
  · intro hv hcp
    unfold step1
    rw [hsa]
    show handleSample1 sat m s1 t (aa t (t_obs t sat.distKm)) = _
    rw [haa]
    simp only [handleSample1]
    rw [if_neg hv, hcp]
  · intro hv hcp
    unfold step2
    rw [hsa]
    show handleSample2 sat m s2 t (aa t t) = _
    rw [haa]
    simp only [handleSample2]
    rw [if_pos hv, hcp]
  · intro hv hcp
    unfold step2
    rw [hsa]
    show handleSample2 sat m s2 t (aa t t) = _
    rw [haa]
    simp only [handleSample2]
    rw [if_pos hv, hcp]
  · intro hv hcp
    unfold step2
    rw [hsa]
    show handleSample2 sat m s2 t (aa t t) = _
    rw [haa]
    simp only [handleSample2]
    rw [if_neg hv, hcp]
    rfl
  · intro hv hcp
    unfold step2
    rw [hsa]
    show handleSample2 sat m s2 t (aa t t) = _
    rw [haa]
    simp only [handleSample2]
    rw [if_neg hv, hcp]
  · intro hcp
    unfold finalize1
    rw [hcp]
    rfl
  · intro hcp
    unfold finalize1
    rw [hcp]
  · intro hcp
    unfold finalize2
    rw [hcp]
    rfl
  · intro hcp
    unfold finalize2
    rw [hcp]

/-- Witness for the amended C1: at sweep start with a visible sample at
elevation 50°, variant 1 allocates pass 1 with `start = end = t` and
`max_elevation` equal to the sample's elevation. -/
theorem claim_C1_witness :
    ((50:ℚ) ≥ 10 ∧ init1.current_pass = none)
    ∧ step1 satA altSched 10 init1 0 =
        ⟨[], [mkEntry1 1 0 ⟨0, 10, 20, 30⟩ ⟨50, 100, 2000⟩], 1,
         some ⟨1, 0, 0, 50, 0⟩⟩ :=
  ⟨⟨by decide, rfl⟩,
   ((claim_C1_amended_segmenter satA altSched 10 init1 init2 0
      ⟨0, 10, 20, 30⟩ ⟨50, 100, 2000⟩ ⟨0, 0, 0, 0, 0⟩ ⟨0, 0, 0, 0, 0, []⟩).1
      rfl (by decide)).1 (by decide) rfl⟩

/-- Counterexample to C1 as stated: on a visible sample at sweep start with
(raw) elevation 10.005°, variant 2 allocates a pass whose `max_elevation`
is 10.0 — `round(10.005, 2)` — and not the sample's elevation, contrary to
the claim's `max_elevation = elevation_deg`. -/
theorem claim_C1_counterexample :
    altExact 0 0 = some ⟨2001/200, 100, 2000⟩
    ∧ (2001/200 : ℚ) ≥ 5
    ∧ (step2 satA altExact 5 init2 0).current_pass
        = some ⟨1, 0, 0, 10, 0,
            [mkEntry2 1 0 ⟨0, 10, 20, 30⟩ ⟨2001/200, 100, 2000⟩]⟩
    ∧ (10 : ℚ) ≠ 2001/200 :=
  ⟨rfl, by decide, by decide, by decide⟩

/-- C2: a time step whose geometry computation fails (either the
propagation or the topocentric transform raising, modelled by a `none`
oracle result) is skipped entirely in both variants — the whole sweep state
(ephemeris list, pass list, counter and open pass) is unchanged — and
consequently any run of failed steps leaves the state untouched, so a
failed stretch strictly inside a visible window cannot split the open
pass. -/
theorem claim_C2_failed_step_skipped (sa : ℚ → Option SatPos)
    (aa : ℚ → ℚ → Option AltAz) (m : ℚ) :
    (∀ (s1 : State1) (t : ℚ), sa t = none → step1 sa aa m s1 t = s1)
    ∧ (∀ (s1 : State1) (t : ℚ) (sat : SatPos), sa t = some sat →
        aa t (t_obs t sat.distKm) = none → step1 sa aa m s1 t = s1)
    ∧ (∀ (s2 : State2) (t : ℚ), sa t = none → step2 sa aa m s2 t = s2)
    ∧ (∀ (s2 : State2) (t : ℚ) (sat : SatPos), sa t = some sat →
        aa t t = none → step2 sa aa m s2 t = s2)
    ∧ (∀ (l : List ℚ) (s1 : State1), (∀ t ∈ l, sa t = none) →
        l.foldl (step1 sa aa m) s1 = s1)
    ∧ (∀ (l : List ℚ) (s2 : State2), (∀ t ∈ l, sa t = none) →
        l.foldl (step2 sa aa m) s2 = s2) := by
  have h1 : ∀ (s1 : State1) (t : ℚ), sa t = none → step1 sa aa m s1 t = s1 := by
    intro s1 t hsa
    unfold step1
    rw [hsa]
  have h2 : ∀ (s2 : State2) (t : ℚ), sa t = none → step2 sa aa m s2 t = s2 := by
    intro s2 t hsa
    unfold step2
    rw [hsa]
  refine ⟨h1, ?_, h2, ?_, ?_, ?_⟩
  · intro s1 t sat hsa haa
    unfold step1
    rw [hsa]
    show handleSample1 sat m s1 t (aa t (t_obs t sat.distKm)) = _
    rw [haa]
    rfl
  · intro s2 t sat hsa haa
    unfold step2
    rw [hsa]
    show handleSample2 sat m s2 t (aa t t) = _
    rw [haa]
    rfl
  · intro l
    induction l with
    | nil => intro s1 _; rfl
    | cons t l ih =>
      intro s1 hfail
      show List.foldl _ (step1 sa aa m s1 t) l = s1
      rw [h1 s1 t (hfail t (List.mem_cons_self t l))]
      exact ih s1 (fun u hu => hfail u (List.mem_cons_of_mem t hu))
  · intro l
    induction l with
    | nil => intro s2 _; rfl
    | cons t l ih =>
      intro s2 hfail
      show List.foldl _ (step2 sa aa m s2 t) l = s2
      rw [h2 s2 t (hfail t (List.mem_cons_self t l))]
      exact ih s2 (fun u hu => hfail u (List.mem_cons_of_mem t hu))

/-- Witness for C2: with an always-failing oracle, a single step and a
whole three-step sweep both leave the initial state unchanged. -/
theorem claim_C2_witness :
    satFail 0 = none
    ∧ step1 satFail altSched 10 init1 0 = init1
    ∧ List.foldl (step2 satFail altSched 10) init2 [0, 1, 2] = init2 :=
  ⟨rfl,
   (claim_C2_failed_step_skipped satFail altSched 10).1 init1 0 rfl,
   (claim_C2_failed_step_skipped satFail altSched 10).2.2.2.2.2 [0, 1, 2]
     init2 (fun _ _ => rfl)⟩

/-- C3 (amended): variant 1 adjusts the observation instant by the one-way
light travel time before requesting the observer-relative geometry — it
evaluates the geometry with the satellite at `t` and the observer at
`t_obs = t - distance_km / 299792.458`, where `distance_km` is the
satellite's geocentric (not line-of-sight) range at `t`; variant 2 performs
no light-time correction at all and evaluates the observer at `t` itself. -/
theorem claim_C3_amended_light_time (sa : ℚ → Option SatPos)
    (aa : ℚ → ℚ → Option AltAz) (m : ℚ) (s1 : State1) (s2 : State2)
    (t : ℚ) (sat : SatPos) (hsa : sa t = some sat) :
    t_obs t sat.distKm = t - sat.distKm / 299792.458
    ∧ step1 sa aa m s1 t
        = handleSample1 sat m s1 t (aa t (t_obs t sat.distKm))
    ∧ step2 sa aa m s2 t = handleSample2 sat m s2 t (aa t t) := by
  refine ⟨rfl, ?_, ?_⟩
  · unfold step1
    rw [hsa]
  · unfold step2
    rw [hsa]

/-- Witness for the amended C3 at the concrete instant 0 with a
one-light-second geocentric range. -/
theorem claim_C3_witness :
    satOneSec 0 = some ⟨299792.458, 0, 0, 0⟩
    ∧ t_obs 0 (299792.458 : ℚ) = 0 - (299792.458 : ℚ) / 299792.458
    ∧ step1 satOneSec altObsTime 10 init1 0
        = handleSample1 ⟨299792.458, 0, 0, 0⟩ 10 init1 0
            (altObsTime 0 (t_obs 0 (299792.458 : ℚ)))
    ∧ step2 satOneSec altObsTime 10 init2 0
        = handleSample2 ⟨299792.458, 0, 0, 0⟩ 10 init2 0 (altObsTime 0 0) :=
  ⟨rfl,
   (claim_C3_amended_light_time satOneSec altObsTime 10 init1 init2 0
      ⟨299792.458, 0, 0, 0⟩ rfl).1,
   (claim_C3_amended_light_time satOneSec altObsTime 10 init1 init2 0
      ⟨299792.458, 0, 0, 0⟩ rfl).2.1,
   (claim_C3_amended_light_time satOneSec altObsTime 10 init1 init2 0
      ⟨299792.458, 0, 0, 0⟩ rfl).2.2⟩

/-- Counterexample to C3 as stated: at instant 0 with a one-light-second
range, the light-time-corrected observer instant is -1, at which the
geometry oracle reports elevation 50° (visible, as variant 1's step
confirms by opening a pass), yet variant 2 evaluates the observer at
instant 0, obtains -50° and opens nothing — variant 2 does not adjust the
observation timestamp. -/
theorem claim_C3_counterexample :
    t_obs 0 (299792.458 : ℚ) = -1
    ∧ altObsTime 0 (t_obs 0 (299792.458 : ℚ)) = some ⟨50, 0, 0⟩
    ∧ altObsTime 0 0 = some ⟨-50, 0, 0⟩
    ∧ (50:ℚ) ≥ 10
    ∧ (step1 satOneSec altObsTime 10 init1 0).pass_counter = 1
    ∧ (step2 satOneSec altObsTime 10 init2 0).pass_number = 0
    ∧ step2 satOneSec altObsTime 10 init2 0 = init2 :=
  ⟨by decide, by decide, by decide, by decide, by decide, by decide, by decide⟩

/-- C9: for every successfully computed sample, both variants classify the
sample as visible — observable as exactly one ephemeris record being
appended at that step — if and only if its elevation is greater than or
equal to `min_elevation`; the threshold comparison is inclusive. -/
theorem claim_C9_inclusive_threshold (sa : ℚ → Option SatPos)
    (aa : ℚ → ℚ → Option AltAz) (m t : ℚ) (sat : SatPos) (g : AltAz) :
    (∀ s1 : State1, sa t = some sat → aa t (t_obs t sat.distKm) = some g →
      ((step1 sa aa m s1 t).ephemeris_data.length
          = s1.ephemeris_data.length + 1 ↔ g.altDeg ≥ m))
    ∧ (∀ s2 : State2, sa t = some sat → aa t t = some g →
      ((step2 sa aa m s2 t).ephemeris.length
          = s2.ephemeris.length + 1 ↔ g.altDeg ≥ m)) := by
  constructor
  · intro s1 hsa haa
    unfold step1
    rw [hsa]
    show (handleSample1 sat m s1 t (aa t (t_obs t sat.distKm))).ephemeris_data.length
        = _ ↔ _
    rw [haa]
    simp only [handleSample1]
    by_cases hv : g.altDeg ≥ m
    · rw [if_pos hv]
      cases hcp : s1.current_pass with
      | none => exact iff_of_true (by simp) hv
      | some p => exact iff_of_true (by simp) hv
    · rw [if_neg hv]
      cases hcp : s1.current_pass with
      | none =>
        show s1.ephemeris_data.length = s1.ephemeris_data.length + 1 ↔ _
        exact iff_of_false (by omega) hv
      | some p =>
        show s1.ephemeris_data.length = s1.ephemeris_data.length + 1 ↔ _
        exact iff_of_false (by omega) hv
  · intro s2 hsa haa
    unfold step2
    rw [hsa]
    show (handleSample2 sat m s2 t (aa t t)).ephemeris.length = _ ↔ _
    rw [haa]
    simp only [handleSample2]
    by_cases hv : g.altDeg ≥ m
    · rw [if_pos hv]
      cases hcp : s2.current_pass with
      | none => exact iff_of_true (by simp) hv
      | some p => exact iff_of_true (by simp) hv
    · rw [if_neg hv]
      cases hcp : s2.current_pass with
      | none =>
        show s2.ephemeris.length = s2.ephemeris.length + 1 ↔ _
        exact iff_of_false (by omega) hv
      | some p =>
        show s2.ephemeris.length = s2.ephemeris.length + 1 ↔ _
        exact iff_of_false (by omega) hv

/-- Witness for C9 at the threshold boundary: a sample at elevation exactly
10° against `min_elevation = 10` is classified visible and produces an
ephemeris record. -/
theorem claim_C9_witness :
    satA 0 = some ⟨0, 10, 20, 30⟩
    ∧ altB 0 (t_obs 0 0) = some ⟨10, 0, 0⟩
    ∧ (10:ℚ) ≥ 10
    ∧ (step1 satA altB 10 init1 0).ephemeris_data.length
        = init1.ephemeris_data.length + 1 :=
  ⟨rfl, rfl, le_refl _,
   ((claim_C9_inclusive_threshold satA altB 10 0 ⟨0, 10, 20, 30⟩
      ⟨10, 0, 0⟩).1 init1 rfl rfl).mpr (le_refl _)⟩

/-- C4: once the external effects (the skyfield oracles, the resolved
satellite name, and — for variant 2 — the wall-clock reading embedded as
`utc_calculated`) are made explicit inputs, each variant's computation is a
pure function: two runs on equal inputs produce equal passes and ephemeris
reports, so serializing them yields byte-identical files. -/
theorem claim_C4_deterministic :
    (∀ i j : Inputs1, i = j →
      calculate_and_save_data1 i = calculate_and_save_data1 j)
    ∧ (∀ i j : Inputs2, i = j →
      calculate_and_save_data2 i = calculate_and_save_data2 j) :=
  ⟨fun _ _ h => h ▸ rfl, fun _ _ h => h ▸ rfl⟩

/-- Witness for C4 at a concrete input bundle. -/
theorem claim_C4_witness :
    (wIn1 = wIn1 ∧ wIn2 = wIn2)
    ∧ calculate_and_save_data1 wIn1 = calculate_and_save_data1 wIn1
    ∧ calculate_and_save_data2 wIn2 = calculate_and_save_data2 wIn2 :=
  ⟨⟨rfl, rfl⟩,
   claim_C4_deterministic.1 wIn1 wIn1 rfl,
   claim_C4_deterministic.2 wIn2 wIn2 rfl⟩

/-- C5 (amended): every ephemeris field is rounded exactly once at record
assembly (6 decimals for lat/lon, 2 for variant 1's height in metres, 3 for
variant 2's altitude in kilometres, 3 for elevation/azimuth/range), as the
record constructors show; rounding is monotone, so variant 2's
`max_elevation` — built as a maximum of per-sample elevations each rounded
to 2 decimals — equals the single rounding of the raw maximum; but variant
1's pass-level `max_elevation` and `duration_sec` are emitted entirely
unrounded. -/
theorem claim_C5_amended_rounding :
    (∀ (n : ℕ) (a b : ℚ), a ≤ b → roundTo n a ≤ roundTo n b)
    ∧ (∀ a b : ℚ, max (roundTo 2 a) (roundTo 2 b) = roundTo 2 (max a b))
    ∧ (∀ (pid : ℕ) (t : ℚ) (sat : SatPos) (g : AltAz),
        mkEntry1 pid t sat g =
          ⟨pid, t, roundTo 6 sat.subLat, roundTo 6 sat.subLon,
           roundTo 2 sat.subHeightM, roundTo 3 g.altDeg, roundTo 3 g.azDeg,
           roundTo 3 g.distKm⟩
        ∧ mkEntry2 pid t sat g =
          ⟨pid, t, roundTo 6 sat.subLat, roundTo 6 sat.subLon,
           roundTo 3 (sat.subHeightM / 1000), roundTo 3 g.altDeg,
           roundTo 3 g.azDeg, roundTo 3 g.distKm⟩)
    ∧ (∀ p : Pass1, closePass1 p =
        ⟨p.pass_id, p.start, p.endTime, p.max_elevation, p.endTime - p.start⟩)
    ∧ (∀ p : Pass2, closePass2 p =
        ⟨p.pass_id, p.start, p.endTime, p.max_elevation,
         roundTo 1 (p.endTime - p.start), p.events⟩) :=
  ⟨fun n _ _ h => roundTo_mono n h,
   fun a b => (roundTo_map_max 2 a b).symm,
   fun _ _ _ _ => ⟨rfl, rfl⟩,
   fun _ => rfl, fun _ => rfl⟩

/-- Witness for the amended C5 at concrete values. -/
theorem claim_C5_witness :
    (1 : ℚ) ≤ 2 ∧ roundTo 2 (1 : ℚ) ≤ roundTo 2 (2 : ℚ) :=
  ⟨by decide, claim_C5_amended_rounding.1 2 1 2 (by decide)⟩

/-- Counterexample to C5 as stated: a single-sample sweep of variant 1 at
elevation 1/3° emits a pass whose reported `max_elevation` is the raw
rational 1/3, which is not equal to its rounding at any of the precisions
named by the claim — the pass-level field is not rounded at all. -/
theorem claim_C5_counterexample :
    (calculate_and_save_data1 cIn1third).1.passes = [⟨1, 0, 0, 1/3, 0⟩]
    ∧ roundTo 2 (1/3) ≠ (1/3 : ℚ)
    ∧ roundTo 3 (1/3) ≠ (1/3 : ℚ)
    ∧ roundTo 6 (1/3) ≠ (1/3 : ℚ) :=
  ⟨by decide, by decide, by decide, by decide⟩

end Spec2Proof
